import Mathlib

/-!
Verification of the console key-value database (src/main.py).

The program is an interactive interpreter over a dict of string keys and
string values, with nested transactions implemented by recursive calls of
`operate`: BEGIN recurses on a copy of the dict, COMMIT returns the copy
(assigned over the parent's dict), ROLLBACK raises an exception caught by
the immediately enclosing BEGIN, END and end-of-input raise ExitException
which propagates through every frame.

We embed the interpreter shallowly: the stack of recursive activations
becomes an explicit stack of stores (`EngineState`), one interpreter
iteration becomes `step`, and the read-eval loop over a list of input
lines becomes `runLines`.  A store is an insertion-ordered association
list, matching Python dict iteration order.
-/

/-- One transaction scope's store: insertion-ordered key/value pairs,
the Lean image of a Python `dict[str, str]`. -/
abbrev Store := List (String × String)

/-- `database[key] = value`: overwrite in place (keeping the key's original
insertion position, as a Python dict does) or append at the end. -/
def setKV : Store → String → String → Store
  | [], k, v => [(k, v)]
  | (k1, v1) :: rest, k, v =>
      if k1 = k then (k1, v) :: rest else (k1, v1) :: setKV rest k v

/-- `database.get(key, default-absent)`: first (only) binding of the key. -/
def getKV : Store → String → Option String
  | [], _ => none
  | (k1, v1) :: rest, k => if k1 = k then some v1 else getKV rest k

/-- `database.pop(key, "")`: remove the key's binding if present. -/
def unsetKV : Store → String → Store
  | [], _ => []
  | (k1, v1) :: rest, k => if k1 = k then rest else (k1, v1) :: unsetKV rest k

/-- The COUNTS loop: `for v in database.values(): if v == value: counter += 1`. -/
def countByValue (database : Store) (value : String) : Nat :=
  database.foldl (fun counter p => if p.2 = value then counter + 1 else counter) 0

/-- The FIND loop: `for k, v in database.items(): if v == value: commands.append(k)`. -/
def findByValue (database : Store) (value : String) : List String :=
  database.foldl (fun acc p => if p.2 = value then acc ++ [p.1] else acc) []

/-- Split a character list at every character satisfying `sep`, keeping empty
pieces, as Python `str.split(sep)` does for a one-character separator. -/
def splitChar (sep : Char → Bool) (acc : List Char) : List Char → List (List Char)
  | [] => [acc.reverse]
  | c :: cs =>
      if sep c then acc.reverse :: splitChar sep [] cs
      else splitChar sep (c :: acc) cs

/-- Python `str.upper()` (ASCII case mapping, which is all the command
comparison needs). -/
def pyUpper (s : String) : String := String.mk (s.toList.map Char.toUpper)

/-- The line tokenizer of `operate`:
`list(filter(lambda x: x != "", raw_operation.split(" ")))` —
split on the space character, then drop empty tokens. -/
def tokenize (raw : String) : List String :=
  ((splitChar (fun c => c = ' ') [] raw.toList).map String.mk).filter (fun t => t ≠ "")

/-- The `operation_command_length` table: arity (token count including the
command token) for each known command, `none` for an unknown command. -/
def operation_command_length (command : String) : Option Nat :=
  if command = "SET" then some 3
  else if command = "GET" then some 2
  else if command = "UNSET" then some 2
  else if command = "COUNTS" then some 2
  else if command = "FIND" then some 2
  else if command = "END" then some 1
  else if command = "BEGIN" then some 1
  else if command = "ROLLBACK" then some 1
  else if command = "COMMIT" then some 1
  else none

/-- `validate_operation`: `true` when the operation is accepted (the Python
function returns), `false` when `CommandValidationException` is raised. -/
def validate_operation (operation : List String) : Bool :=
  match operation with
  | [] => false
  | cmdTok :: _ =>
      match operation_command_length (pyUpper cmdTok) with
      | none => false
      | some n => n == operation.length

/-- Observable outcome of processing one input line. -/
inductive StepOutcome where
  | printed (text : String)
  | silent
  | validationFailed
  | transactionError
  | terminate
deriving DecidableEq, Repr

/-- The stack of recursive `operate` activations: `top` is the innermost
(current) scope's database, `parents` the databases of the enclosing
frames, innermost first.  `parents = []` means no transaction is active. -/
structure EngineState where
  top : Store
  parents : List Store
deriving DecidableEq, Repr

/-- Transaction depth: the number of enclosing BEGIN frames. -/
def EngineState.depth (st : EngineState) : Nat := st.parents.length

/-- One iteration of the `operate` loop on an already tokenized line.
BEGIN pushes a copy of the current database (the recursive call on
`copy(database)`); COMMIT breaks out of the inner frame and assigns its
database over the parent's; ROLLBACK discards the inner frame's database;
both print the fixed no-transaction diagnostic when no frame encloses. -/
def step (st : EngineState) (operation : List String) : EngineState × StepOutcome :=
  if validate_operation operation then
    match operation with
    | [] => (st, StepOutcome.validationFailed)
    | cmdTok :: args =>
        let command := pyUpper cmdTok
        if command = "SET" then
          match args with
          | [key, value] => ({ st with top := setKV st.top key value }, StepOutcome.silent)
          | _ => (st, StepOutcome.validationFailed)
        else if command = "GET" then
          match args with
          | [key] => (st, StepOutcome.printed ((getKV st.top key).getD "NULL"))
          | _ => (st, StepOutcome.validationFailed)
        else if command = "UNSET" then
          match args with
          | [key] => ({ st with top := unsetKV st.top key }, StepOutcome.silent)
          | _ => (st, StepOutcome.validationFailed)
        else if command = "COUNTS" then
          match args with
          | [value] => (st, StepOutcome.printed (toString (countByValue st.top value)))
          | _ => (st, StepOutcome.validationFailed)
        else if command = "FIND" then
          match args with
          | [value] =>
              (st, StepOutcome.printed (String.intercalate ", " (findByValue st.top value)))
          | _ => (st, StepOutcome.validationFailed)
        else if command = "END" then
          (st, StepOutcome.terminate)
        else if command = "BEGIN" then
          ({ top := st.top, parents := st.top :: st.parents }, StepOutcome.silent)
        else if command = "ROLLBACK" then
          match st.parents with
          | [] => (st, StepOutcome.transactionError)
          | p :: ps => ({ top := p, parents := ps }, StepOutcome.silent)
        else if command = "COMMIT" then
          match st.parents with
          | [] => (st, StepOutcome.transactionError)
          | _ :: ps => ({ top := st.top, parents := ps }, StepOutcome.silent)
        else (st, StepOutcome.validationFailed)
  else (st, StepOutcome.validationFailed)

/-- The read-eval loop over a list of raw input lines.  Exhausting the
input raises EOFError in the source, which becomes ExitException exactly
like END, so it is modelled as a `terminate` outcome.  After a `terminate`
no further line is processed. -/
def runLines (st : EngineState) : List String → EngineState × List StepOutcome
  | [] => (st, [StepOutcome.terminate])
  | line :: rest =>
      let r := step st (tokenize line)
      match r.2 with
      | StepOutcome.terminate => (r.1, [StepOutcome.terminate])
      | out =>
          let rr := runLines r.1 rest
          (rr.1, out :: rr.2)

/-- Iterated `step` over already tokenized operations, ignoring outcomes;
used to speak about a scope surviving a sequence of commands. -/
def runOps (st : EngineState) (ops : List (List String)) : EngineState :=
  ops.foldl (fun s op => (step s op).1) st

/-- Canonical splitter on runs of one-or-more space characters: skips
repeated separators, ignores leading and trailing spaces.  Used to state
what the code's tokenizer actually does. -/
def wordsAux (cur : List Char) : List Char → List (List Char)
  | [] => if cur = [] then [] else [cur.reverse]
  | c :: cs =>
      if c = ' ' then
        if cur = [] then wordsAux [] cs else cur.reverse :: wordsAux [] cs
      else wordsAux (c :: cur) cs

/-- The tokenizer the specification describes: fields separated by runs of
one-or-more whitespace characters (any whitespace, not only the space
character), leading and trailing whitespace ignored.  Second definition
kept for comparison with `tokenize`, the code's tokenizer. -/
def tokenizeSpec (raw : String) : List String :=
  ((splitChar Char.isWhitespace [] raw.toList).map String.mk).filter (fun t => t ≠ "")

/-- The specification's two validation failure kinds. -/
inductive ValidationError where
  | unknownCommand
  | arityMismatch
deriving DecidableEq, Repr

/-- The nine command tokens the validator recognises. -/
def knownCommands : List String :=
  ["SET", "GET", "UNSET", "COUNTS", "FIND", "END", "BEGIN", "ROLLBACK", "COMMIT"]

/-- The fixed arities the specification lists (counting the command token). -/
def specArity (command : String) : Nat :=
  if command = "SET" then 3
  else if command = "GET" ∨ command = "UNSET" ∨ command = "COUNTS" ∨ command = "FIND" then 2
  else 1

/-- The validator as the specification words it: `UnknownCommand` for an
empty token list or an unrecognised (case-insensitively uppercased) first
token, `ArityMismatch` for a recognised command with the wrong token
count, and on success the tokens returned unchanged.  Second definition
kept for comparison with `validate_operation`, the code's validator. -/
def validateSpec (tokens : List String) : Except ValidationError (List String) :=
  match tokens with
  | [] => Except.error ValidationError.unknownCommand
  | cmdTok :: _ =>
      if pyUpper cmdTok ∈ knownCommands then
        if tokens.length = specArity (pyUpper cmdTok) then Except.ok tokens
        else Except.error ValidationError.arityMismatch
      else Except.error ValidationError.unknownCommand

/-- A command of the current scope that neither unsets nor overwrites the
key `k`: a read-only command, a SET of a different key, or an UNSET of a
different key. -/
def preservesKey (k : String) (op : List String) : Bool :=
  match op with
  | [c, a] =>
      pyUpper c == "GET" || pyUpper c == "COUNTS" || pyUpper c == "FIND" ||
        (pyUpper c == "UNSET" && a != k)
  | [c, a, _] => pyUpper c == "SET" && a != k
  | _ => false

section StoreLemmas

theorem getKV_setKV_self (s : Store) (k v : String) : getKV (setKV s k v) k = some v := by
  induction s with
  | nil => simp [setKV, getKV]
  | cons p rest ih =>
      obtain ⟨k1, v1⟩ := p
      by_cases h : k1 = k
      · simp [setKV, getKV, h]
      · simp [setKV, getKV, h, ih]

theorem getKV_setKV_other (s : Store) (k1 k v : String) (h : k1 ≠ k) :
    getKV (setKV s k1 v) k = getKV s k := by
  induction s with
  | nil => simp [setKV, getKV, h]
  | cons p rest ih =>
      obtain ⟨k2, v2⟩ := p
      by_cases h2 : k2 = k1
      · subst h2
        simp [setKV, getKV, h]
      · by_cases h3 : k2 = k
        · simp [setKV, getKV, h2, h3, Ne.symm h]
        · simp [setKV, getKV, h2, h3, ih]

theorem getKV_unsetKV_other (s : Store) (k1 k : String) (h : k1 ≠ k) :
    getKV (unsetKV s k1) k = getKV s k := by
  induction s with
  | nil => simp [unsetKV]
  | cons p rest ih =>
      obtain ⟨k2, v2⟩ := p
      by_cases h2 : k2 = k1
      · subst h2
        simp [unsetKV, getKV, h]
      · by_cases h3 : k2 = k
        · simp [unsetKV, getKV, h2, h3, Ne.symm h]
        · simp [unsetKV, getKV, h2, h3, ih]

theorem findByValue_foldl_aux (v : String) (l : Store) (acc : List String) :
    l.foldl (fun acc p => if p.2 = v then acc ++ [p.1] else acc) acc =
      acc ++ (l.filter (fun p => p.2 == v)).map Prod.fst := by
  induction l generalizing acc with
  | nil => simp
  | cons p rest ih =>
      by_cases h : p.2 = v
      · simp [List.foldl_cons, List.filter_cons, h, ih]
      · simp [List.foldl_cons, List.filter_cons, h, ih]

theorem findByValue_eq_filter (db : Store) (v : String) :
    findByValue db v = (db.filter (fun p => p.2 == v)).map Prod.fst := by
  simpa using findByValue_foldl_aux v db []

end StoreLemmas

section StepLemmas

theorem step_upper_congr (st : EngineState) (c1 c2 : String) (args : List String)
    (h : pyUpper c1 = pyUpper c2) :
    step st (c1 :: args) = step st (c2 :: args) := by
  simp only [step, validate_operation, h, List.length_cons]

theorem step_preserves_key (st : EngineState) (k : String) (op : List String)
    (h : preservesKey k op = true) :
    getKV (step st op).1.top k = getKV st.top k := by
  rcases op with _ | ⟨c, _ | ⟨a, _ | ⟨b, _ | ⟨d, tl⟩⟩⟩⟩
  · simp [preservesKey] at h
  · simp [preservesKey] at h
  · simp only [preservesKey, Bool.or_eq_true, Bool.and_eq_true, beq_iff_eq,
      bne_iff_ne, ne_eq] at h
    rcases h with ((h | h) | h) | ⟨h, ha⟩
    · rw [step_upper_congr st c "GET" [a] h]
      rfl
    · rw [step_upper_congr st c "COUNTS" [a] h]
      rfl
    · rw [step_upper_congr st c "FIND" [a] h]
      rfl
    · rw [step_upper_congr st c "UNSET" [a] h]
      exact getKV_unsetKV_other st.top a k ha
  · simp only [preservesKey, Bool.and_eq_true, beq_iff_eq, bne_iff_ne, ne_eq] at h
    obtain ⟨h, ha⟩ := h
    rw [step_upper_congr st c "SET" [a, b] h]
    exact getKV_setKV_other st.top a k b ha
  · simp [preservesKey] at h

theorem runOps_preserves_key (k : String) (ops : List (List String)) (st : EngineState)
    (h : ∀ op ∈ ops, preservesKey k op = true) :
    getKV (runOps st ops).top k = getKV st.top k := by
  induction ops generalizing st with
  | nil => rfl
  | cons op rest ih =>
      have hop : preservesKey k op = true := h op (List.mem_cons_self _ _)
      have hrest : ∀ o ∈ rest, preservesKey k o = true :=
        fun o ho => h o (List.mem_cons_of_mem _ ho)
      calc getKV (runOps (step st op).1 rest).top k
          = getKV (step st op).1.top k := ih (step st op).1 hrest
        _ = getKV st.top k := step_preserves_key st k op hop

end StepLemmas

section TokenizerLemmas

theorem splitChar_filter_eq_wordsAux (l cur : List Char) :
    (splitChar (fun c => c = ' ') cur l).filter (fun t => t ≠ []) = wordsAux cur l := by
  induction l generalizing cur with
  | nil =>
      by_cases h : cur = []
      · simp [splitChar, wordsAux, h]
      · simp [splitChar, wordsAux, h]
  | cons c cs ih =>
      by_cases hc : c = ' '
      · by_cases h : cur = []
        · simpa [splitChar, wordsAux, hc, h] using ih []
        · simpa [splitChar, wordsAux, hc, h] using ih []
      · simpa [splitChar, wordsAux, hc] using ih (c :: cur)

theorem splitChar_append_space (l cur : List Char) :
    splitChar (fun c => c = ' ') cur (l ++ [' ']) =
      splitChar (fun c => c = ' ') cur l ++ [[]] := by
  induction l generalizing cur with
  | nil => simp [splitChar]
  | cons c cs ih =>
      by_cases hc : c = ' ' <;> simp [splitChar, hc, ih]

theorem tokenize_eq_wordsAux (raw : String) :
    tokenize raw = (wordsAux [] raw.toList).map String.mk := by
  rw [show tokenize raw =
      ((splitChar (fun c => c = ' ') [] raw.toList).map String.mk).filter
        (fun t => t ≠ "") from rfl,
    List.filter_map, ← splitChar_filter_eq_wordsAux]
  congr 1
  apply List.filter_congr
  intro t _
  simp [Function.comp, String.ext_iff]

theorem tokenize_append_space (raw : String) : tokenize (raw ++ " ") = tokenize raw := by
  have h : (raw ++ " ").toList = raw.toList ++ [' '] := rfl
  rw [show tokenize (raw ++ " ") =
      ((splitChar (fun c => c = ' ') [] (raw ++ " ").toList).map String.mk).filter
        (fun t => t ≠ "") from rfl,
    h, splitChar_append_space]
  simp [tokenize, String.ext_iff]

end TokenizerLemmas

section ValidationLemmas

theorem operation_command_length_eq (c : String) :
    operation_command_length c = if c ∈ knownCommands then some (specArity c) else none := by
  unfold operation_command_length specArity knownCommands
  split_ifs <;> simp_all

theorem validateSpec_ok_iff (tokens : List String) :
    validate_operation tokens = true ↔ validateSpec tokens = Except.ok tokens := by
  cases tokens with
  | nil => simp [validate_operation, validateSpec]
  | cons c rest =>
      simp only [validate_operation, validateSpec, operation_command_length_eq]
      by_cases hm : pyUpper c ∈ knownCommands
      · by_cases hl : rest.length + 1 = specArity (pyUpper c)
        · simp [hm, hl]
        · simp [hm, hl]
          exact fun he => hl he.symm
      · simp [hm]

theorem validateSpec_unknown_iff (tokens : List String) :
    validateSpec tokens = Except.error ValidationError.unknownCommand ↔
      tokens = [] ∨ ∃ c rest, tokens = c :: rest ∧ pyUpper c ∉ knownCommands := by
  cases tokens with
  | nil => simp [validateSpec]
  | cons c rest =>
      simp only [validateSpec]
      by_cases hm : pyUpper c ∈ knownCommands
      · by_cases hl : rest.length + 1 = specArity (pyUpper c) <;> simp [hm, hl]
      · simp [hm]

theorem validateSpec_arity_iff (tokens : List String) :
    validateSpec tokens = Except.error ValidationError.arityMismatch ↔
      ∃ c rest, tokens = c :: rest ∧ pyUpper c ∈ knownCommands ∧
        tokens.length ≠ specArity (pyUpper c) := by
  cases tokens with
  | nil => simp [validateSpec]
  | cons c rest =>
      simp only [validateSpec]
      by_cases hm : pyUpper c ∈ knownCommands
      · by_cases hl : rest.length + 1 = specArity (pyUpper c) <;> simp [hm, hl]
      · simp [hm]

theorem step_invalid (st : EngineState) (tokens : List String)
    (h : validate_operation tokens = false) :
    step st tokens = (st, StepOutcome.validationFailed) := by
  simp [step, h]

end ValidationLemmas

/-- C1: at any transaction depth of at least one, COMMIT replaces the parent
scope's store entirely with the top store's final contents (full overwrite,
not a per-key merge) and pops one level; after
BEGIN; SET k v; BEGIN; SET k v2; COMMIT; COMMIT the base store maps k to v2,
while after BEGIN; SET k v; BEGIN; SET k v2; COMMIT; ROLLBACK the base store
does not contain k. -/
theorem commit_folds_into_parent :
    (∀ (top p : Store) (ps : List Store),
        step ⟨top, p :: ps⟩ ["COMMIT"] = (⟨top, ps⟩, StepOutcome.silent)) ∧
    (runLines ⟨[], []⟩ ["BEGIN", "SET k v", "BEGIN", "SET k v2", "COMMIT", "COMMIT"]).1 =
      ⟨[("k", "v2")], []⟩ ∧
    getKV (runLines ⟨[], []⟩
        ["BEGIN", "SET k v", "BEGIN", "SET k v2", "COMMIT", "COMMIT"]).1.top "k" =
      some "v2" ∧
    (runLines ⟨[], []⟩ ["BEGIN", "SET k v", "BEGIN", "SET k v2", "COMMIT", "ROLLBACK"]).1 =
      ⟨[], []⟩ ∧
    getKV (runLines ⟨[], []⟩
        ["BEGIN", "SET k v", "BEGIN", "SET k v2", "COMMIT", "ROLLBACK"]).1.top "k" =
      none :=
  ⟨fun top p ps => rfl, by decide, by decide, by decide, by decide⟩

/-- C2: BEGIN pushes a full copy of the current store, SET and UNSET inside
a transaction mutate only that copy, ROLLBACK discards exactly the innermost
transaction's changes and restores the parent scope's store as it was at the
matching BEGIN (unwinding one level, not all); after
SET k v1; BEGIN; SET k v2; ROLLBACK; GET k, GET prints v1. -/
theorem transaction_isolation_rollback :
    (∀ st : EngineState, step st ["BEGIN"] = (⟨st.top, st.top :: st.parents⟩, StepOutcome.silent)) ∧
    (∀ (top : Store) (ps : List Store) (k v : String),
        step ⟨top, ps⟩ ["SET", k, v] = (⟨setKV top k v, ps⟩, StepOutcome.silent)) ∧
    (∀ (top : Store) (ps : List Store) (k : String),
        step ⟨top, ps⟩ ["UNSET", k] = (⟨unsetKV top k, ps⟩, StepOutcome.silent)) ∧
    (∀ (top p : Store) (ps : List Store),
        step ⟨top, p :: ps⟩ ["ROLLBACK"] = (⟨p, ps⟩, StepOutcome.silent)) ∧
    runLines ⟨[], []⟩ ["SET k v1", "BEGIN", "SET k v2", "ROLLBACK", "GET k"] =
      (⟨[("k", "v1")], []⟩,
        [StepOutcome.silent, StepOutcome.silent, StepOutcome.silent, StepOutcome.silent,
          StepOutcome.printed "v1", StepOutcome.terminate]) :=
  ⟨fun st => rfl, fun top ps k v => rfl, fun top ps k => rfl, fun top p ps => rfl, by decide⟩

/-- C4: ROLLBACK or COMMIT at transaction depth 0 produces the
TransactionError outcome, leaves the store unchanged, keeps depth 0, and the
command loop continues processing subsequent input lines. -/
theorem no_transaction_error_keeps_state :
    (∀ top : Store, step ⟨top, []⟩ ["ROLLBACK"] = (⟨top, []⟩, StepOutcome.transactionError)) ∧
    (∀ top : Store, step ⟨top, []⟩ ["COMMIT"] = (⟨top, []⟩, StepOutcome.transactionError)) ∧
    (∀ top : Store,
        (step ⟨top, []⟩ ["ROLLBACK"]).1.depth = 0 ∧ (step ⟨top, []⟩ ["COMMIT"]).1.depth = 0) ∧
    (∀ (top : Store) (lines : List String),
        runLines ⟨top, []⟩ ("ROLLBACK" :: lines) =
          ((runLines ⟨top, []⟩ lines).1,
            StepOutcome.transactionError :: (runLines ⟨top, []⟩ lines).2)) ∧
    (∀ (top : Store) (lines : List String),
        runLines ⟨top, []⟩ ("COMMIT" :: lines) =
          ((runLines ⟨top, []⟩ lines).1,
            StepOutcome.transactionError :: (runLines ⟨top, []⟩ lines).2)) :=
  ⟨fun top => rfl, fun top => rfl, fun top => ⟨rfl, rfl⟩,
    fun top lines => rfl, fun top lines => rfl⟩

/-- C8: an END command at any transaction depth, and end-of-input, produce
the Terminate outcome with the whole state (every scope, no commit folding)
left exactly as it was, and no further command is processed. -/
theorem terminate_propagates :
    (∀ st : EngineState, step st ["END"] = (st, StepOutcome.terminate)) ∧
    (∀ (st : EngineState) (lines : List String),
        runLines st ("END" :: lines) = (st, [StepOutcome.terminate])) ∧
    (∀ st : EngineState, runLines st [] = (st, [StepOutcome.terminate])) :=
  ⟨fun st => rfl, fun st lines => rfl, fun st => rfl⟩

/-- C9: a key whose stored value is the literal string NULL is
observationally indistinguishable at the GET interface from an absent key:
both print the in-band marker NULL. -/
theorem null_value_indistinguishable (s t : Store) (ps qs : List Store) (k1 k2 : String)
    (h1 : getKV s k1 = some "NULL") (h2 : getKV t k2 = none) :
    (step ⟨s, ps⟩ ["GET", k1]).2 = StepOutcome.printed "NULL" ∧
    (step ⟨s, ps⟩ ["GET", k1]).2 = (step ⟨t, qs⟩ ["GET", k2]).2 := by
  have e1 : (step ⟨s, ps⟩ ["GET", k1]).2 =
      StepOutcome.printed ((getKV s k1).getD "NULL") := rfl
  have e2 : (step ⟨t, qs⟩ ["GET", k2]).2 =
      StepOutcome.printed ((getKV t k2).getD "NULL") := rfl
  rw [e1, e2, h1, h2]
  exact ⟨rfl, rfl⟩

/-- Witness for C9 at a concrete store holding the value NULL. -/
theorem null_value_indistinguishable_witness :
    (step ⟨[("k", "NULL")], []⟩ ["GET", "k"]).2 = StepOutcome.printed "NULL" ∧
    (step ⟨[("k", "NULL")], []⟩ ["GET", "k"]).2 = (step ⟨[], []⟩ ["GET", "k"]).2 :=
  null_value_indistinguishable [("k", "NULL")] [] [] [] "k" "k" (by decide) (by decide)

/-- C10: GET, COUNTS and FIND leave the entire engine state — every scope's
store and the transaction depth — unchanged. -/
theorem readonly_commands_preserve_state (st : EngineState) (c a : String)
    (h : pyUpper c = "GET" ∨ pyUpper c = "COUNTS" ∨ pyUpper c = "FIND") :
    (step st [c, a]).1 = st ∧ (step st [c, a]).1.depth = st.depth := by
  have hst : (step st [c, a]).1 = st := by
    rcases h with h | h | h
    · rw [step_upper_congr st c "GET" [a] h]
      rfl
    · rw [step_upper_congr st c "COUNTS" [a] h]
      rfl
    · rw [step_upper_congr st c "FIND" [a] h]
      rfl
  exact ⟨hst, by rw [hst]⟩

/-- Witness for C10: a GET against a store inside a transaction. -/
theorem readonly_commands_preserve_state_witness :
    (step ⟨[("a", "1")], [[]]⟩ ["GET", "x"]).1 = ⟨[("a", "1")], [[]]⟩ :=
  (readonly_commands_preserve_state ⟨[("a", "1")], [[]]⟩ "GET" "x" (Or.inl (by decide))).1

/-- C3: after SET k v in the current scope, GET k prints v, and it keeps
printing v across any further sequence of same-scope commands that contains
no UNSET of k and no overwriting SET of k. -/
theorem set_then_get_persists (s : Store) (ps : List Store) (k v : String)
    (ops : List (List String)) (h : ∀ op ∈ ops, preservesKey k op = true) :
    getKV (setKV s k v) k = some v ∧
    (step ⟨setKV s k v, ps⟩ ["GET", k]).2 = StepOutcome.printed v ∧
    getKV (runOps ⟨setKV s k v, ps⟩ ops).top k = some v ∧
    (step (runOps ⟨setKV s k v, ps⟩ ops) ["GET", k]).2 = StepOutcome.printed v := by
  have h1 := getKV_setKV_self s k v
  have h2 : getKV (runOps ⟨setKV s k v, ps⟩ ops).top k = some v := by
    rw [runOps_preserves_key k ops ⟨setKV s k v, ps⟩ h]
    exact h1
  refine ⟨h1, ?_, h2, ?_⟩
  · rw [show (step ⟨setKV s k v, ps⟩ ["GET", k]).2 =
        StepOutcome.printed ((getKV (setKV s k v) k).getD "NULL") from rfl, h1]
    rfl
  · rw [show (step (runOps ⟨setKV s k v, ps⟩ ops) ["GET", k]).2 =
        StepOutcome.printed ((getKV (runOps ⟨setKV s k v, ps⟩ ops).top k).getD "NULL") from rfl,
      h2]
    rfl

/-- Witness for C3: SET k v survives a SET and an UNSET of another key and
the read-only commands. -/
theorem set_then_get_persists_witness :
    ([["SET", "j", "w"], ["UNSET", "j"], ["COUNTS", "w"], ["FIND", "w"], ["GET", "k"]].all
        (preservesKey "k")) = true ∧
    getKV (runOps ⟨setKV [] "k" "v", []⟩
        [["SET", "j", "w"], ["UNSET", "j"], ["COUNTS", "w"], ["FIND", "w"], ["GET", "k"]]).top
        "k" =
      some "v" ∧
    (step (runOps ⟨setKV [] "k" "v", []⟩
          [["SET", "j", "w"], ["UNSET", "j"], ["COUNTS", "w"], ["FIND", "w"], ["GET", "k"]])
        ["GET", "k"]).2 =
      StepOutcome.printed "v" := by
  have h : ∀ op ∈ [["SET", "j", "w"], ["UNSET", "j"], ["COUNTS", "w"], ["FIND", "w"],
      ["GET", "k"]], preservesKey "k" op = true := by decide
  exact ⟨by decide, (set_then_get_persists [] [] "k" "v" _ h).2.2.1,
    (set_then_get_persists [] [] "k" "v" _ h).2.2.2⟩

/-- C5: validation fails with UnknownCommand exactly on an empty token list
or an unrecognised uppercased first token, and with the distinct
ArityMismatch exactly on a recognised command whose token count differs from
its fixed arity; the code's validator accepts exactly when the
specification's returns the tokens unchanged, and on any failure the engine
state is unchanged and the outcome is ValidationFailed. -/
theorem validation_characterization (tokens : List String) (st : EngineState) :
    (validateSpec tokens = Except.error ValidationError.unknownCommand ↔
      tokens = [] ∨ ∃ c rest, tokens = c :: rest ∧ pyUpper c ∉ knownCommands) ∧
    (validateSpec tokens = Except.error ValidationError.arityMismatch ↔
      ∃ c rest, tokens = c :: rest ∧ pyUpper c ∈ knownCommands ∧
        tokens.length ≠ specArity (pyUpper c)) ∧
    (validate_operation tokens = true ↔ validateSpec tokens = Except.ok tokens) ∧
    (validate_operation tokens = false →
      step st tokens = (st, StepOutcome.validationFailed)) :=
  ⟨validateSpec_unknown_iff tokens, validateSpec_arity_iff tokens,
    validateSpec_ok_iff tokens, step_invalid st tokens⟩

/-- Witness for C5: the wrong-arity line SET k fails validation and leaves
the store untouched. -/
theorem validation_characterization_witness :
    validateSpec ["SET", "k"] = Except.error ValidationError.arityMismatch ∧
    validate_operation ["SET", "k"] = false ∧
    step ⟨[("a", "1")], []⟩ ["SET", "k"] = (⟨[("a", "1")], []⟩, StepOutcome.validationFailed) := by
  have h := validation_characterization ["SET", "k"] ⟨[("a", "1")], []⟩
  exact ⟨h.2.1.mpr ⟨"SET", ["k"], rfl, by decide, by decide⟩, by decide, h.2.2.2 (by decide)⟩

/-- C6 counterexample: the code splits an input line only on the space
character, so a tab does not separate fields: on the line SET-tab-a-space-b
the code produces the two tokens [SET-tab-a, b], which fail validation,
while splitting on whitespace runs as the claim states would produce the
three tokens [SET, a, b]. -/
theorem tokenize_whitespace_counterexample :
    tokenize "SET\ta b" = ["SET\ta", "b"] ∧
    tokenizeSpec "SET\ta b" = ["SET", "a", "b"] ∧
    tokenize "SET\ta b" ≠ tokenizeSpec "SET\ta b" ∧
    step ⟨[], []⟩ (tokenize "SET\ta b") = (⟨[], []⟩, StepOutcome.validationFailed) := by
  decide

/-- C6 amended: each raw input line is tokenized by splitting on runs of
one-or-more space characters only — leading and trailing spaces ignored, an
empty line producing zero tokens and hence ValidationFailed — and a
non-space whitespace character such as a tab is not a separator. -/
theorem tokenize_space_runs :
    (∀ raw : String, tokenize raw = (wordsAux [] raw.toList).map String.mk) ∧
    tokenize "" = [] ∧
    (∀ raw : String, tokenize (" " ++ raw) = tokenize raw) ∧
    (∀ raw : String, tokenize (raw ++ " ") = tokenize raw) ∧
    (∀ st : EngineState, step st (tokenize "") = (st, StepOutcome.validationFailed)) ∧
    tokenize "SET\ta b" = ["SET\ta", "b"] :=
  ⟨tokenize_eq_wordsAux, by decide, fun raw => rfl, tokenize_append_space,
    fun st => rfl, by decide⟩

/-- C7: FIND v prints exactly the keys whose current value equals v, in the
store's insertion order, joined by the separator comma-space, the empty
string when no key matches, with the state unchanged. -/
theorem find_returns_matching_keys (db : Store) (ps : List Store) (v : String) :
    step ⟨db, ps⟩ ["FIND", v] =
      (⟨db, ps⟩,
        StepOutcome.printed
          (String.intercalate ", " ((db.filter (fun p => p.2 == v)).map Prod.fst))) ∧
    (∀ k : String, k ∈ findByValue db v ↔ (k, v) ∈ db) ∧
    (db.filter (fun p => p.2 == v) = [] →
      step ⟨db, ps⟩ ["FIND", v] = (⟨db, ps⟩, StepOutcome.printed "")) := by
  have e : step ⟨db, ps⟩ ["FIND", v] =
      (⟨db, ps⟩, StepOutcome.printed (String.intercalate ", " (findByValue db v))) := rfl
  refine ⟨?_, ?_, ?_⟩
  · rw [e, findByValue_eq_filter]
  · intro k
    rw [findByValue_eq_filter]
    simp only [List.mem_map, List.mem_filter, beq_iff_eq]
    constructor
    · rintro ⟨⟨a1, a2⟩, ⟨hmem, hv⟩, hk⟩
      exact hk ▸ hv ▸ hmem
    · intro hmem
      exact ⟨(k, v), ⟨hmem, rfl⟩, rfl⟩
  · intro hf
    rw [e, findByValue_eq_filter, hf]
    rfl

/-- Witness for C7: FIND over a store with no matching value prints the
empty string. -/
theorem find_returns_matching_keys_witness :
    step ⟨[("a", "1")], []⟩ ["FIND", "2"] = (⟨[("a", "1")], []⟩, StepOutcome.printed "") :=
  (find_returns_matching_keys [("a", "1")] [] "2").2.2 (by decide)
